import Mathlib

/-!
# Mysterious-dungeon simulation core: a shallow embedding

This file embeds the simulation core of the dungeon crawler (movement and
collision resolution, monster roster initialization, the monster-update loop,
combat resolution, level loading, treasure construction) in Lean and proves
the specification claims about it.

Conventions of the embedding:
* C++ `int` values are modelled as `Int` (no arithmetic here comes close to
  overflow), loop counters as `Nat`.
* The external `Map` collaborator is passed in as data: an occupancy predicate
  `isPositionFree : Point → Bool`, a start cell, and a stream
  `randomFreePosition : Nat → Point` of random free cells drawn in call order.
* `rand()` is modelled as a stream `rolls : Nat → Nat` of non-negative values
  fixed by the seed, consumed in call order.
* `Point.distance` (Euclidean, computed over `double` in the source) is
  embedded exactly through squared distances: for integer coordinates and an
  integer threshold `r ≥ 0`, `distance p q ≤ r` holds iff `distSq p q ≤ r²`,
  since square root is monotone and both conversions are exact.
-/

/-- The spatial primitive. Modelled from the spec: `Point` is an integer
`(x, y)` pair with equality and a Euclidean distance metric (`utils.h` is not
under `src/`). -/
structure Point where
  x : Int
  y : Int
deriving DecidableEq, Repr

/-- Squared Euclidean distance between two points; the exact integer embedding
of `Point::distance` comparisons (see the file docstring). -/
def Point.distSq (p q : Point) : Int :=
  (p.x - q.x) ^ 2 + (p.y - q.y) ^ 2

/-- `Game::areEntitiesInVicinity` (src/unnamed/part_000, lines 340-351):
`distance(p, q) <= (double) d`, embedded via squared distances. -/
def areEntitiesInVicinity (p q : Point) (d : Int) : Bool :=
  Point.distSq p q ≤ d * d

/-- `Entity::move`. Modelled from the spec: "`move(dx, dy)` applies an offset
to position unconditionally (no bounds/collision check — that is the
resolver's job)" (`entity.cpp` is not under `src/`). -/
def Point.move (p : Point) (dx dy : Int) : Point :=
  ⟨p.x + dx, p.y + dy⟩

/-- Position effect of `Game::updateEntityPosition`
(src/unnamed/part_000, lines 117-122): record the pre-move position, apply the
raw offset, and revert when the destination cell is not free on the map.
The Orc branch of the same function (lines 88-115) only spawns a background
pathfinding computation and does not touch the position computed here. -/
def updateEntityPosition (isPositionFree : Point → Bool) (pos : Point)
    (dx dy : Int) : Point :=
  let oldPos := pos
  let moved := pos.move dx dy
  if !(isPositionFree moved) then oldPos else moved

/-- **C2.** For every entity position and every offset `(dx, dy)`: if the cell
reached by applying the offset is not free on the map, `updateEntityPosition`
leaves the entity at its pre-move position (exact revert); if the cell is
free, the entity ends at the offset position. -/
theorem updateEntityPosition_free_or_revert (isPositionFree : Point → Bool)
    (pos : Point) (dx dy : Int) :
    (isPositionFree (pos.move dx dy) = false →
      updateEntityPosition isPositionFree pos dx dy = pos) ∧
    (isPositionFree (pos.move dx dy) = true →
      updateEntityPosition isPositionFree pos dx dy = pos.move dx dy) := by
  constructor <;> intro h <;> simp [updateEntityPosition, h]

/-- Witness for C2 on a concrete map: cells with a negative `x` coordinate are
blocked, so a step left from the origin reverts and a step right lands. -/
theorem updateEntityPosition_free_or_revert_witness :
    updateEntityPosition (fun p => decide (0 ≤ p.x)) ⟨0, 0⟩ (-1) 0 = ⟨0, 0⟩ ∧
    updateEntityPosition (fun p => decide (0 ≤ p.x)) ⟨0, 0⟩ 1 0 = ⟨1, 0⟩ := by
  refine ⟨?_, ?_⟩
  · exact (updateEntityPosition_free_or_revert (fun p => decide (0 ≤ p.x))
      ⟨0, 0⟩ (-1) 0).1 (by decide)
  · exact (updateEntityPosition_free_or_revert (fun p => decide (0 ≤ p.x))
      ⟨0, 0⟩ 1 0).2 (by decide)

/-! ## Monster roster initialization (`Game::initalizeMonsters`) -/

/-- The four monster species of the roster. -/
inductive Species where
  | goblin
  | orc
  | troll
  | dragon
deriving DecidableEq, Repr

/-- A roster entry: species tag plus spawn position. The per-species stat
tables live in `monster.h` and play no role in roster population. -/
structure Monster where
  species : Species
  position : Point
deriving DecidableEq, Repr

/-- One `createMonster(count, builder)` call inside `Game::initalizeMonsters`
(src/unnamed/part_000, lines 49-62): `n` monsters of one species, each placed
at the next cell drawn from `map->randomFreePosition()`; `start` is how many
draws earlier calls already consumed. -/
def createMonster (randomFreePosition : Nat → Point) (start n : Nat)
    (species : Species) : List Monster :=
  (List.range n).map (fun i => ⟨species, randomFreePosition (start + i)⟩)

/-- `Game::initalizeMonsters` (src/unnamed/part_000, lines 30-76): clear the
roster, then push `count / 2` goblins, `count / 3` orcs, `count / 6` trolls
and the remainder as dragons, each at a map-provided random free cell. -/
def initalizeMonsters (randomFreePosition : Nat → Point) (count : Nat) :
    List Monster :=
  let goblinsCount := count / 2
  let orcsCount := count / 3
  let trollsCount := count / 6
  let dragonsCount := count - goblinsCount - orcsCount - trollsCount
  createMonster randomFreePosition 0 goblinsCount Species.goblin ++
  createMonster randomFreePosition goblinsCount orcsCount Species.orc ++
  createMonster randomFreePosition (goblinsCount + orcsCount) trollsCount
    Species.troll ++
  createMonster randomFreePosition (goblinsCount + orcsCount + trollsCount)
    dragonsCount Species.dragon

/-- Number of roster entries of one species. -/
def speciesCount (l : List Monster) (s : Species) : Nat :=
  l.countP (fun m => m.species = s)

theorem speciesCount_createMonster (f : Nat → Point) (start n : Nat)
    (s t : Species) :
    speciesCount (createMonster f start n s) t = if s = t then n else 0 := by
  unfold speciesCount createMonster
  rcases eq_or_ne s t with h | h <;>
    simp [List.countP_map, Function.comp_def, h]

theorem speciesCount_append (l₁ l₂ : List Monster) (s : Species) :
    speciesCount (l₁ ++ l₂) s = speciesCount l₁ s + speciesCount l₂ s := by
  simp [speciesCount, List.countP_append]

/-- **C5.** `initalizeMonsters` populates the roster with `count / 2` goblins,
`count / 3` orcs, `count / 6` trolls (integer division) and the remainder as
dragons, every entry placed at a cell drawn from the map's random-free-cell
source; for `count = 12` that is exactly 6 goblins, 4 orcs, 2 trolls and
0 dragons. -/
theorem initalizeMonsters_counts (randomFreePosition : Nat → Point)
    (count : Nat) :
    speciesCount (initalizeMonsters randomFreePosition count) Species.goblin
      = count / 2 ∧
    speciesCount (initalizeMonsters randomFreePosition count) Species.orc
      = count / 3 ∧
    speciesCount (initalizeMonsters randomFreePosition count) Species.troll
      = count / 6 ∧
    speciesCount (initalizeMonsters randomFreePosition count) Species.dragon
      = count - count / 2 - count / 3 - count / 6 ∧
    (initalizeMonsters randomFreePosition count).length = count ∧
    (∀ m ∈ initalizeMonsters randomFreePosition count,
      ∃ i, m.position = randomFreePosition i) ∧
    speciesCount (initalizeMonsters randomFreePosition 12) Species.goblin = 6 ∧
    speciesCount (initalizeMonsters randomFreePosition 12) Species.orc = 4 ∧
    speciesCount (initalizeMonsters randomFreePosition 12) Species.troll = 2 ∧
    speciesCount (initalizeMonsters randomFreePosition 12) Species.dragon
      = 0 := by
  have hlen : ∀ f start n s, (createMonster f start n s).length = n := by
    intro f start n s; simp [createMonster]
  have hmem : ∀ f start n s, ∀ m ∈ createMonster f start n s,
      ∃ i, m.position = f i := by
    intro f start n s m hm
    simp only [createMonster, List.mem_map, List.mem_range] at hm
    obtain ⟨i, _, rfl⟩ := hm
    exact ⟨start + i, rfl⟩
  have hdiv : count / 2 + count / 3 + count / 6 ≤ count := by omega
  refine ⟨?_, ?_, ?_, ?_, ?_, ?_, ?_, ?_, ?_, ?_⟩
  · simp [initalizeMonsters, speciesCount_append, speciesCount_createMonster]
  · simp [initalizeMonsters, speciesCount_append, speciesCount_createMonster]
  · simp [initalizeMonsters, speciesCount_append, speciesCount_createMonster]
  · simp [initalizeMonsters, speciesCount_append, speciesCount_createMonster]
  · simp only [initalizeMonsters, List.length_append, hlen]
    omega
  · intro m hm
    simp only [initalizeMonsters, List.mem_append] at hm
    rcases hm with ((h | h) | h) | h <;>
      exact hmem _ _ _ _ m h
  · simp [initalizeMonsters, speciesCount_append, speciesCount_createMonster]
  · simp [initalizeMonsters, speciesCount_append, speciesCount_createMonster]
  · simp [initalizeMonsters, speciesCount_append, speciesCount_createMonster]
  · simp [initalizeMonsters, speciesCount_append, speciesCount_createMonster]

/-- Witness for C5 with a concrete position stream and `count = 12`: the
species tally is 6 goblins, 4 orcs, 2 trolls, 0 dragons. -/
theorem initalizeMonsters_counts_witness :
    speciesCount (initalizeMonsters (fun i => ⟨i, 0⟩) 12) Species.goblin = 6 ∧
    speciesCount (initalizeMonsters (fun i => ⟨i, 0⟩) 12) Species.orc = 4 ∧
    speciesCount (initalizeMonsters (fun i => ⟨i, 0⟩) 12) Species.troll = 2 ∧
    speciesCount (initalizeMonsters (fun i => ⟨i, 0⟩) 12) Species.dragon
      = 0 := by
  have h := initalizeMonsters_counts (fun i => (⟨i, 0⟩ : Point)) 12
  exact ⟨h.2.2.2.2.2.2.1, h.2.2.2.2.2.2.2.1, h.2.2.2.2.2.2.2.2.1,
    h.2.2.2.2.2.2.2.2.2⟩

/-! ## Entity health (`Entity::takeDamage`, `Entity::getHealth`,
`Entity::isAlive`)

`entity.cpp` is not under `src/`; only the declarations in `src/src/entity.h`
(lines 27-36) are. The bodies are modelled from the spec: "`takeDamage(amount)`
subtracts from health (may go negative internally, but 'alive' is defined as
health > 0)"; `getHealth` is a pure accessor like the other getters. -/

/-- The health component of an `Entity`. -/
structure EntityState where
  health : Int
deriving DecidableEq, Repr

/-- Modelled from the spec: `Entity::takeDamage` subtracts the damage from
health, with no floor (`entity.cpp` is not under `src/`). -/
def EntityState.takeDamage (e : EntityState) (damage : Int) : EntityState :=
  ⟨e.health - damage⟩

/-- Modelled from the spec: `Entity::getHealth` is a pure accessor. -/
def EntityState.getHealth (e : EntityState) : Int :=
  e.health

/-- Modelled from the spec: `Entity::isAlive` holds iff health > 0. -/
def EntityState.isAlive (e : EntityState) : Bool :=
  0 < e.health

/-- **C4, counterexample.** An entity with health 5 that takes two hits of 3
damage each (both amounts non-negative) reports a negative value through
`getHealth`: observable health is not kept non-negative. -/
theorem getHealth_negative_counterexample :
    (([3, 3] : List Int).foldl EntityState.takeDamage ⟨5⟩).getHealth < 0 := by
  decide

/-- **C4, amended.** For every entity and every sequence of `takeDamage` calls
with non-negative amounts, health never increases (so `getHealth` never
exceeds its starting value), and the entity is alive exactly when the
resulting health is positive — health may go negative, but a non-positive
health is never observable as a live entity. -/
theorem takeDamage_monotone_and_alive (e : EntityState) (ds : List Int)
    (hds : ∀ d ∈ ds, 0 ≤ d) :
    (ds.foldl EntityState.takeDamage e).getHealth ≤ e.getHealth ∧
    ((ds.foldl EntityState.takeDamage e).isAlive = true ↔
      0 < (ds.foldl EntityState.takeDamage e).getHealth) := by
  constructor
  · induction ds generalizing e with
    | nil => exact le_refl _
    | cons d rest ih =>
      have hd : 0 ≤ d := hds d (List.mem_cons_self d rest)
      have hrest : ∀ x ∈ rest, 0 ≤ x := fun x hx =>
        hds x (List.mem_cons_of_mem d hx)
      calc (List.foldl EntityState.takeDamage (e.takeDamage d) rest).getHealth
          ≤ (e.takeDamage d).getHealth := ih (e.takeDamage d) hrest
        _ ≤ e.getHealth := by
            simp only [EntityState.takeDamage, EntityState.getHealth]
            omega
  · simp [EntityState.isAlive, EntityState.getHealth]

/-- Witness for C4 (amended): health 5, hits of 1 and 2; health drops to 2 and
the entity is still alive. -/
theorem takeDamage_monotone_and_alive_witness :
    (([1, 2] : List Int).foldl EntityState.takeDamage ⟨5⟩).getHealth ≤
      (⟨5⟩ : EntityState).getHealth ∧
    ((([1, 2] : List Int).foldl EntityState.takeDamage ⟨5⟩).isAlive = true ↔
      0 < (([1, 2] : List Int).foldl EntityState.takeDamage ⟨5⟩).getHealth) :=
  takeDamage_monotone_and_alive ⟨5⟩ [1, 2] (by decide)

/-! ## Combat resolution (`Game::fight`)

The attack values of the two combatants are fixed for the duration of the
fight (`getAttack` is a pure accessor and `fight` never writes it), so the
state of the loop is the pair of health values. `rand()` is the roll stream:
each round draws roll 0 (attacker's strike lands iff `roll % 3 ≠ 0`, damaging
the defender) and then roll 1 (defender's counter lands iff `roll % 3 ≠ 0`,
damaging the attacker, with no re-check that the defender is still alive),
after which the stream advances by two. -/

/-- The `while (attacker.isAlive() && defender.isAlive())` loop of
`Game::fight` (src/unnamed/part_000, lines 263-278), run for at most `fuel`
rounds: `some (ah, dh)` is the pair of final health values when the loop
condition fails within `fuel` rounds, `none` means the loop is still running
after `fuel` rounds. -/
def fightFuel (attackerAttack defenderAttack : Int) :
    (Nat → Nat) → Nat → Int → Int → Option (Int × Int)
  | _, 0, ah, dh =>
    if 0 < ah ∧ 0 < dh then none else some (ah, dh)
  | rolls, fuel + 1, ah, dh =>
    if 0 < ah ∧ 0 < dh then
      fightFuel attackerAttack defenderAttack (fun n => rolls (n + 2)) fuel
        (if rolls 1 % 3 ≠ 0 then ah - defenderAttack else ah)
        (if rolls 0 % 3 ≠ 0 then dh - attackerAttack else dh)
    else some (ah, dh)

theorem fightFuel_exit (attackerAttack defenderAttack : Int)
    (rolls : Nat → Nat) (fuel : Nat) (ah dh : Int)
    (h : ¬(0 < ah ∧ 0 < dh)) :
    fightFuel attackerAttack defenderAttack rolls fuel ah dh = some (ah, dh) := by
  cases fuel <;> simp [fightFuel, h]

theorem fightFuel_some_dead (attackerAttack defenderAttack : Int)
    (rolls : Nat → Nat) (fuel : Nat) (ah dh : Int) (res : Int × Int)
    (h : fightFuel attackerAttack defenderAttack rolls fuel ah dh = some res) :
    ¬(0 < res.1 ∧ 0 < res.2) := by
  induction fuel generalizing rolls ah dh with
  | zero =>
    by_cases hc : 0 < ah ∧ 0 < dh
    · simp [fightFuel, hc] at h
    · simp only [fightFuel, if_neg hc, Option.some_inj] at h
      subst h
      exact hc
  | succ n ih =>
    by_cases hc : 0 < ah ∧ 0 < dh
    · simp only [fightFuel, if_pos hc] at h
      exact ih _ _ _ h
    · simp only [fightFuel, if_neg hc, Option.some_inj] at h
      subst h
      exact hc

/-- All-miss roll stream: every draw is a multiple of 3, so every strike and
every counter misses. -/
def allMissRolls : Nat → Nat :=
  fun _ => 0

theorem fightFuel_allMiss_none (fuel : Nat) :
    fightFuel 2 2 allMissRolls fuel 3 3 = none := by
  induction fuel with
  | zero => rfl
  | succ n ih =>
    simp only [fightFuel, allMissRolls]
    norm_num
    exact ih

/-- **C3, counterexample.** With both combatants at health 3 and attack 2
(fixed and positive) and a roll stream that misses every time (all draws are
multiples of 3 — the embedding of a seed whose `rand()` sequence keeps
returning multiples of 3), the fight loop never exits: no number of rounds
makes the loop condition fail, so no finite round bound exists either. -/
theorem fight_unbounded_counterexample :
    ¬ ∃ fuel, (fightFuel 2 2 allMissRolls fuel 3 3).isSome = true := by
  rintro ⟨fuel, h⟩
  rw [fightFuel_allMiss_none fuel] at h
  simp at h

/-- **C3, amended.** For every pair of combatants with fixed positive attack
values and any roll stream in which each round lands at least one of its two
strikes (not both draws of the round are multiples of 3), `Game::fight`
terminates within `(ah + dh)` rounds — the loop exits once the fuel reaches
the sum of the starting health values — and when it returns, at least one of
the two combatants is no longer alive. -/
theorem fight_terminates_and_settles (rolls : Nat → Nat)
    (attackerAttack defenderAttack ah dh : Int) (fuel : Nat)
    (hatk : 1 ≤ attackerAttack) (hdef : 1 ≤ defenderAttack)
    (hhit : ∀ j, rolls (2 * j) % 3 ≠ 0 ∨ rolls (2 * j + 1) % 3 ≠ 0)
    (hfuel : (ah + dh).toNat ≤ fuel) :
    (fightFuel attackerAttack defenderAttack rolls fuel ah dh).isSome = true ∧
    ∀ res, fightFuel attackerAttack defenderAttack rolls fuel ah dh = some res →
      ¬(0 < res.1 ∧ 0 < res.2) := by
  refine ⟨?_, fun res h => fightFuel_some_dead _ _ _ _ _ _ _ h⟩
  induction fuel generalizing rolls ah dh with
  | zero =>
    by_cases hc : 0 < ah ∧ 0 < dh
    · exfalso
      omega
    · simp [fightFuel, hc]
  | succ n ih =>
    by_cases hc : 0 < ah ∧ 0 < dh
    · simp only [fightFuel, if_pos hc]
      by_cases hr0 : rolls 0 % 3 ≠ 0 <;> by_cases hr1 : rolls 1 % 3 ≠ 0
      · simp only [if_pos hr0, if_pos hr1]
        exact ih _ _ _ (fun j => hhit (j + 1)) (by omega)
      · simp only [if_pos hr0, if_neg hr1]
        exact ih _ _ _ (fun j => hhit (j + 1)) (by omega)
      · simp only [if_neg hr0, if_pos hr1]
        exact ih _ _ _ (fun j => hhit (j + 1)) (by omega)
      · exfalso
        rcases hhit 0 with h | h
        · exact hr0 h
        · exact hr1 h
    · simp [fightFuel_exit _ _ _ _ _ _ hc]

/-- Witness for C3 (amended): health 1 vs 1, attack 1 vs 1, every roll a hit;
the fight settles within 2 rounds and the combatant pair `(0, 0)` that it
settles to has no side alive. -/
theorem fight_terminates_and_settles_witness :
    (fightFuel 1 1 (fun _ => 1) 2 1 1).isSome = true ∧
    ¬((0 : Int) < 0 ∧ (0 : Int) < 0) := by
  have hhit : ∀ j, (fun _ => 1 : Nat → Nat) (2 * j) % 3 ≠ 0 ∨
      (fun _ => 1 : Nat → Nat) (2 * j + 1) % 3 ≠ 0 := by
    intro j
    exact Or.inl (by simp)
  have h := fight_terminates_and_settles (fun _ => 1) 1 1 1 1 2
    (by decide) (by decide) hhit (by decide)
  exact ⟨h.1, h.2 (0, 0) (by decide)⟩

/-- **C9.** In a round of `Game::fight` where both strikes land, the
defender's counter-attack is rolled and applied even though the attacker's
strike earlier in the same round already brought the defender's health to
zero or below: the fight ends with the attacker having taken the dead
defender's full attack as damage. -/
theorem fight_dead_defender_still_strikes (rolls : Nat → Nat)
    (attackerAttack defenderAttack ah dh : Int) (fuel : Nat)
    (hah : 0 < ah) (hdh : 0 < dh)
    (hr0 : rolls 0 % 3 ≠ 0) (hr1 : rolls 1 % 3 ≠ 0)
    (hkill : dh - attackerAttack ≤ 0) :
    fightFuel attackerAttack defenderAttack rolls (fuel + 1) ah dh =
      some (ah - defenderAttack, dh - attackerAttack) := by
  have hc : 0 < ah ∧ 0 < dh := ⟨hah, hdh⟩
  simp only [fightFuel, if_pos hc, if_pos hr0, if_pos hr1]
  exact fightFuel_exit _ _ _ _ _ _ (by omega)

/-- Witness for C9: attacker at health 10 / attack 5, defender at health 3 /
attack 4, both rolls hit; the strike leaves the defender at -2 (dead), yet
the counter still costs the attacker 4 health. -/
theorem fight_dead_defender_still_strikes_witness :
    fightFuel 5 4 (fun _ => 1) 1 10 3 = some (6, -2) :=
  fight_dead_defender_still_strikes (fun _ => 1) 5 4 10 3 0
    (by decide) (by decide) (by decide) (by decide) (by decide)

/-! ## The monster-update loop (`Game::updatePositions`) -/

theorem ediv_abs_of_pos (d : Int) (h : 0 < d) : d / |d| = 1 := by
  rw [abs_of_pos h, Int.ediv_self h.ne']

theorem ediv_abs_of_neg (d : Int) (h : d < 0) : d / |d| = -1 := by
  rw [abs_of_neg h, Int.ediv_neg, Int.ediv_self h.ne]

/-- The move delta `Game::updatePositions` picks for one monster
(src/unnamed/part_000, lines 173-187): the default diagonal step `(1, 1)`,
replaced — when the monster is within vicinity 10 of the player — by the
player-minus-monster difference with each non-zero component divided by its
absolute value. -/
def monsterDelta (playerPos monsterPos : Point) : Int × Int :=
  if areEntitiesInVicinity playerPos monsterPos 10 then
    ((if playerPos.x - monsterPos.x ≠ 0 then
        (playerPos.x - monsterPos.x) / |playerPos.x - monsterPos.x|
      else playerPos.x - monsterPos.x),
     (if playerPos.y - monsterPos.y ≠ 0 then
        (playerPos.y - monsterPos.y) / |playerPos.y - monsterPos.y|
      else playerPos.y - monsterPos.y))
  else (1, 1)

/-- One monster's full move in `Game::updatePositions`: the chosen delta fed
through the collision resolver. -/
def monsterStep (isPositionFree : Point → Bool) (playerPos m : Point) : Point :=
  updateEntityPosition isPositionFree m (monsterDelta playerPos m).1
    (monsterDelta playerPos m).2

/-- Position effect of the `Game::updatePositions` loop
(src/unnamed/part_000, lines 168-196): each monster in roster order takes its
step; as soon as a moved monster shares the player's cell the fight runs and
the loop breaks. The returned `Nat` counts the fights triggered; the health
exchange inside the fight is `fightFuel`'s concern and does not move anyone,
so positions are modelled here. -/
def updatePositions (isPositionFree : Point → Bool) (playerPos : Point) :
    List Point → List Point × Nat
  | [] => ([], 0)
  | m :: rest =>
    let moved := monsterStep isPositionFree playerPos m
    if moved = playerPos then
      (moved :: rest, 1)
    else
      let r := updatePositions isPositionFree playerPos rest
      (moved :: r.1, r.2)

/-- `monsterDelta`, written with the claims' sign clamp: within the vicinity
radius each component is the sign of the player-minus-monster difference,
outside it the delta is the diagonal `(1, 1)`. -/
theorem monsterDelta_eq_sign (pp m : Point) :
    monsterDelta pp m =
      (if Point.distSq pp m ≤ 100 then
        (if m.x < pp.x then 1 else if pp.x < m.x then -1 else 0)
       else 1,
       if Point.distSq pp m ≤ 100 then
        (if m.y < pp.y then 1 else if pp.y < m.y then -1 else 0)
       else 1) := by
  by_cases hv : Point.distSq pp m ≤ 100
  · have hb : areEntitiesInVicinity pp m 10 = true := by
      simp [areEntitiesInVicinity]
      omega
    simp only [monsterDelta, hb, if_true, if_pos hv]
    refine Prod.ext ?_ ?_ <;> simp only
    · rcases lt_trichotomy m.x pp.x with h | h | h
      · rw [if_pos (by omega : pp.x - m.x ≠ 0), ediv_abs_of_pos _ (by omega),
          if_pos h]
      · simp [h, Int.sub_self]
      · rw [if_pos (by omega : pp.x - m.x ≠ 0), ediv_abs_of_neg _ (by omega),
          if_neg (by omega : ¬m.x < pp.x), if_pos h]
    · rcases lt_trichotomy m.y pp.y with h | h | h
      · rw [if_pos (by omega : pp.y - m.y ≠ 0), ediv_abs_of_pos _ (by omega),
          if_pos h]
      · simp [h, Int.sub_self]
      · rw [if_pos (by omega : pp.y - m.y ≠ 0), ediv_abs_of_neg _ (by omega),
          if_neg (by omega : ¬m.y < pp.y), if_pos h]
  · have hb : areEntitiesInVicinity pp m 10 = false := by
      simp [areEntitiesInVicinity]
      omega
    simp [monsterDelta, hb, if_neg hv]

/-- **C6, counterexample.** Player at `(1, 1)`, roster `[(2, 2), (5, 5)]` on
an all-free map: monster 0 steps onto the player's cell, the fight breaks the
loop, and monster 1 — although within the vicinity radius (squared distance
32 ≤ 100) and with a resolved sign-clamped move that would land it at
`(4, 4)` — keeps its position `(5, 5)`; the claim's "every monster is moved"
fails on this call. -/
theorem updatePositions_fight_skips_later_counterexample :
    Point.distSq ⟨1, 1⟩ ⟨5, 5⟩ ≤ 100 ∧
    updateEntityPosition (fun _ => true) ⟨5, 5⟩ (-1) (-1) = ⟨4, 4⟩ ∧
    (updatePositions (fun _ => true) ⟨1, 1⟩ [⟨2, 2⟩, ⟨5, 5⟩]).1.get? 1 =
      some ⟨5, 5⟩ ∧
    (⟨5, 5⟩ : Point) ≠ ⟨4, 4⟩ := by
  decide

/-- **C6, amended.** In each call of `Game::updatePositions`, every monster
up to and including the first one that lands on the player's cell after its
move — hence every monster, on calls where no fight triggers — is moved
exactly once: by the sign-clamped unit delta toward the player when its
(Euclidean) distance to the player is within the vicinity radius 10, each
component being 1, -1 or 0 according to the sign of the player-minus-monster
difference, and by the default diagonal step `(1, 1)` otherwise, the step
being resolved by the collision resolver; monsters after the first fight are
not moved at all. -/
theorem updatePositions_moves_until_fight (isPositionFree : Point → Bool)
    (pp : Point) (ms : List Point) (i : Nat) (hi : i < ms.length)
    (hbefore : ∀ k, (hk : k < ms.length) → k < i →
      monsterStep isPositionFree pp (ms.get ⟨k, hk⟩) ≠ pp) :
    (updatePositions isPositionFree pp ms).1.get? i =
      some (updateEntityPosition isPositionFree (ms.get ⟨i, hi⟩)
        (if Point.distSq pp (ms.get ⟨i, hi⟩) ≤ 100 then
          (if (ms.get ⟨i, hi⟩).x < pp.x then 1
           else if pp.x < (ms.get ⟨i, hi⟩).x then -1 else 0)
         else 1)
        (if Point.distSq pp (ms.get ⟨i, hi⟩) ≤ 100 then
          (if (ms.get ⟨i, hi⟩).y < pp.y then 1
           else if pp.y < (ms.get ⟨i, hi⟩).y then -1 else 0)
         else 1)) := by
  induction ms generalizing i with
  | nil => exact absurd hi (by simp)
  | cons m rest ih =>
    cases i with
    | zero =>
      by_cases hfight : monsterStep isPositionFree pp m = pp
      · simp only [updatePositions, if_pos hfight, List.get?, List.get,
          Option.some_inj]
        rw [monsterStep, monsterDelta_eq_sign]
      · simp only [updatePositions, if_neg hfight, List.get?, List.get,
          Option.some_inj]
        rw [monsterStep, monsterDelta_eq_sign]
    | succ i' =>
      have hfight : monsterStep isPositionFree pp m ≠ pp :=
        hbefore 0 (by simp) (Nat.succ_pos i')
      simp only [updatePositions, if_neg hfight, List.get?, List.get]
      exact ih i' (by simpa using hi)
        (fun k hk hki => hbefore (k + 1) (by simpa using hk)
          (Nat.succ_lt_succ hki))

/-- Witness for C6 (amended): player at `(1, 1)`, roster `[(2, 2), (9, 9)]`
on an all-free map; monster 0 — the one that triggers the fight — is itself
moved by its sign-clamped delta `(-1, -1)` onto the player's cell `(1, 1)`. -/
theorem updatePositions_moves_until_fight_witness :
    (updatePositions (fun _ => true) ⟨1, 1⟩ [⟨2, 2⟩, ⟨9, 9⟩]).1.get? 0 =
      some ⟨1, 1⟩ := by
  have h := updatePositions_moves_until_fight (fun _ => true) ⟨1, 1⟩
    [⟨2, 2⟩, ⟨9, 9⟩] 0 (by decide)
    (fun k hk hki => absurd hki (Nat.not_lt_zero k))
  exact h.trans (by decide)

/-- **C10.** `Game::updatePositions` triggers at most one fight per call;
moreover when monster `i` is the first of the roster to land on the player's
cell after its move, exactly one fight triggers and every monster after `i`
in roster order keeps its pre-call position. -/
theorem updatePositions_at_most_one_fight (isPositionFree : Point → Bool)
    (pp : Point) (ms : List Point) :
    (updatePositions isPositionFree pp ms).2 ≤ 1 ∧
    ∀ i, (hi : i < ms.length) →
      monsterStep isPositionFree pp (ms.get ⟨i, hi⟩) = pp →
      (∀ k, (hk : k < ms.length) → k < i →
        monsterStep isPositionFree pp (ms.get ⟨k, hk⟩) ≠ pp) →
      (updatePositions isPositionFree pp ms).2 = 1 ∧
      ∀ j, i < j →
        (updatePositions isPositionFree pp ms).1.get? j = ms.get? j := by
  induction ms with
  | nil =>
    exact ⟨Nat.zero_le 1, fun i hi => absurd hi (by simp)⟩
  | cons m rest ih =>
    by_cases hfight : monsterStep isPositionFree pp m = pp
    · refine ⟨by simp [updatePositions, hfight], ?_⟩
      intro i hi hstep hfirst
      cases i with
      | zero =>
        refine ⟨by simp [updatePositions, hfight], ?_⟩
        intro j hj
        match j, hj with
        | j' + 1, _ =>
          simp [updatePositions, hfight]
      | succ i' =>
        exact absurd hfight (hfirst 0 (by simp) (Nat.succ_pos i'))
    · refine ⟨?_, ?_⟩
      · simpa [updatePositions, hfight] using ih.1
      · intro i hi hstep hfirst
        cases i with
        | zero => exact absurd hstep hfight
        | succ i' =>
          have hres := ih.2 i' (by simpa using hi) hstep
            (fun k hk hki => hfirst (k + 1) (by simpa using hk)
              (Nat.succ_lt_succ hki))
          refine ⟨by simpa [updatePositions, hfight] using hres.1, ?_⟩
          intro j hj
          match j, hj with
          | j' + 1, hj =>
            simpa [updatePositions, hfight] using
              hres.2 j' (Nat.lt_of_succ_lt_succ hj)

/-- Witness for C10: player at `(1, 1)`, roster `[(2, 2), (9, 9)]` on an
all-free map; the first monster steps onto the player, one fight triggers,
and the second monster keeps its position `(9, 9)`. -/
theorem updatePositions_at_most_one_fight_witness :
    (updatePositions (fun _ => true) ⟨1, 1⟩ [⟨2, 2⟩, ⟨9, 9⟩]).2 = 1 ∧
    (updatePositions (fun _ => true) ⟨1, 1⟩ [⟨2, 2⟩, ⟨9, 9⟩]).1.get? 1 =
      some ⟨9, 9⟩ := by
  have h := (updatePositions_at_most_one_fight (fun _ => true) ⟨1, 1⟩
    [⟨2, 2⟩, ⟨9, 9⟩]).2 0 (by decide) (by decide)
    (fun k hk hki => absurd hki (Nat.not_lt_zero k))
  exact ⟨h.1, (h.2 1 Nat.zero_lt_one).trans (by decide)⟩

/-! ## Level loading (`Game::loadLevel`) -/

/-- The integer value of `pow(2, level - 1)` as used on
src/unnamed/part_000, line 308: `pow` works over `double` and the result is
truncated by the conversion of the sum to the `int` parameter of
`initalizeMonsters`, so `level = 0` contributes `0` (from `2^-1 = 0.5`) and
`level ≥ 1` contributes the exact power `2^(level - 1)`; the embedding is
exact for every `level` that a session can reach. -/
def levelScaleTerm (level : Int) : Nat :=
  if 1 ≤ level then 2 ^ (level - 1).toNat else 0

/-- The `Game` state that `Game::loadLevel` touches. -/
structure GameLevelState where
  level : Int
  playerPos : Point
  monsters : List Monster

/-- `Game::loadLevel` (src/unnamed/part_000, lines 301-309): regenerate the
map, put the player on the new start cell, and repopulate the roster with
`GameSettings::monsterCount + pow(2, level - 1)` monsters. The body reads
`Game::level` but never writes it; line 308 is the only occurrence of the
field in the whole class implementation, and `game.h` line 21 zero-initializes
it, so the field keeps whatever value it had — there is no increment. -/
def loadLevel (getStart : Point) (randomFreePosition : Nat → Point)
    (monsterCount : Nat) (g : GameLevelState) : GameLevelState :=
  { level := g.level
    playerPos := getStart
    monsters := initalizeMonsters randomFreePosition
      (monsterCount + levelScaleTerm g.level) }

/-- **C7.** The depth counter does not strictly increase across a level
transition: `Game::loadLevel` leaves `Game::level` exactly as it was (the
code never increments it), so the level value used for the new level's
monster-count scaling is never greater than the one used for the previous
level. -/
theorem loadLevel_level_not_increased (getStart : Point)
    (randomFreePosition : Nat → Point) (monsterCount : Nat)
    (g : GameLevelState) :
    (loadLevel getStart randomFreePosition monsterCount g).level = g.level ∧
    ¬g.level < (loadLevel getStart randomFreePosition monsterCount g).level :=
  ⟨rfl, lt_irrefl g.level⟩

/-! ## Treasure construction (`Treasure::Treasure`) -/

/-- The one-shot stat bonus a treasure carries. Modelled from the spec:
"a one-shot stat Bonus (health, attack, or experience increment, exactly one
non-zero field)" (`treasure.h` is not under `src/`). The field values are
rationals: `pow(1.25, multiplier)` over `double` is embedded exactly as
`(5/4) ^ multiplier`, which is exact in binary floating point for every
multiplier a session can reach. -/
structure Bonus where
  health : ℚ
  attack : ℚ
  exp : ℚ
deriving DecidableEq, Repr

/-- The parts of a `Treasure` the claim speaks about: the `Entity` base-class
health and attack it is constructed with, and its bonus. -/
structure TreasureState where
  health : Int
  attack : Int
  bonus : Bonus
deriving DecidableEq, Repr

/-- `Treasure::Treasure` (src/unnamed/part_001, lines 5-26): the `Entity`
base is constructed with health 0 and attack 0, and `rand() % 3` (the roll)
picks which single bonus field receives `1 * pow(1.25, multiplier)`; the
other two fields stay at their zero initialization. -/
def TreasureState.make (roll : Nat) (multiplier : Nat) : TreasureState :=
  let val := roll % 3
  { health := 0
    attack := 0
    bonus :=
      if val = 0 then
        { health := 1 * (5 / 4 : ℚ) ^ multiplier, attack := 0, exp := 0 }
      else if val = 1 then
        { health := 0, attack := 1 * (5 / 4 : ℚ) ^ multiplier, exp := 0 }
      else
        { health := 0, attack := 0, exp := 1 * (5 / 4 : ℚ) ^ multiplier } }

/-- **C8.** Every constructed treasure is a non-combat entity — health 0 and
attack 0 — and its bonus has exactly one non-zero field (health, attack or
exp, picked by the roll), that field holding `1 * 1.25 ^ multiplier`, which
is positive for every multiplier. -/
theorem treasure_non_combat_one_bonus (roll multiplier : Nat) :
    (TreasureState.make roll multiplier).health = 0 ∧
    (TreasureState.make roll multiplier).attack = 0 ∧
    0 < (5 / 4 : ℚ) ^ multiplier ∧
    (((TreasureState.make roll multiplier).bonus.health =
        1 * (5 / 4 : ℚ) ^ multiplier ∧
      (TreasureState.make roll multiplier).bonus.attack = 0 ∧
      (TreasureState.make roll multiplier).bonus.exp = 0) ∨
     ((TreasureState.make roll multiplier).bonus.health = 0 ∧
      (TreasureState.make roll multiplier).bonus.attack =
        1 * (5 / 4 : ℚ) ^ multiplier ∧
      (TreasureState.make roll multiplier).bonus.exp = 0) ∨
     ((TreasureState.make roll multiplier).bonus.health = 0 ∧
      (TreasureState.make roll multiplier).bonus.attack = 0 ∧
      (TreasureState.make roll multiplier).bonus.exp =
        1 * (5 / 4 : ℚ) ^ multiplier)) := by
  refine ⟨rfl, rfl, pow_pos (by norm_num) multiplier, ?_⟩
  have hval : roll % 3 = 0 ∨ roll % 3 = 1 ∨ roll % 3 = 2 := by omega
  rcases hval with h | h | h
  · exact Or.inl (by simp [TreasureState.make, h])
  · exact Or.inr (Or.inl (by simp [TreasureState.make, h]))
  · exact Or.inr (Or.inr (by simp [TreasureState.make, h]))
